import Mathlib

namespace LevelUPGym

/-!
Verification development for the LevelUPGym progression and session-tracking
engine.  Python controllers are shallowly embedded as pure Lean functions:
database rows become structures, SQL tables become lists or finite sets,
machine integers become `ℤ`/`ℕ`, IEEE-754 doubles become exact rationals
together with an explicit binary64 rounding function, and the wall-clock
date is passed explicitly as an argument (calendar days are modelled as
integers counting days from a fixed Monday).
-/

/-! ## Progression ledger (controllers/gamification_controller.py) -/

/-- Embeds `GamificationController.EXP_TABLE`: cumulative experience required
for each level, keyed 1..100 (level 1 threshold = 0).  The Python dict's
`.get(key, default)` never falls through to its default in `add_experience`
because the level-up loop guard `new_level < 20` keeps every access at keys
2..20, all present; keys outside 1..100 return 0 here, an arbitrary value
that is never consulted. -/
def expTable : ℕ → ℤ
  | 1 => 0 | 2 => 100 | 3 => 250 | 4 => 450 | 5 => 700
  | 6 => 1000 | 7 => 1350 | 8 => 1750 | 9 => 2200 | 10 => 2700
  | 11 => 3250 | 12 => 3850 | 13 => 4500 | 14 => 5200 | 15 => 5950
  | 16 => 6750 | 17 => 7600 | 18 => 8500 | 19 => 9450 | 20 => 10450
  | 21 => 11500 | 22 => 12600 | 23 => 13750 | 24 => 14950 | 25 => 16200
  | 26 => 17500 | 27 => 18850 | 28 => 20250 | 29 => 21700 | 30 => 23200
  | 31 => 24750 | 32 => 26350 | 33 => 28000 | 34 => 29700 | 35 => 31450
  | 36 => 33250 | 37 => 35100 | 38 => 37000 | 39 => 38950 | 40 => 40950
  | 41 => 43000 | 42 => 45100 | 43 => 47250 | 44 => 49450 | 45 => 51700
  | 46 => 54000 | 47 => 56350 | 48 => 58750 | 49 => 61200 | 50 => 63700
  | 51 => 66250 | 52 => 68850 | 53 => 71500 | 54 => 74200 | 55 => 76950
  | 56 => 79750 | 57 => 82600 | 58 => 85500 | 59 => 88450 | 60 => 91450
  | 61 => 94500 | 62 => 97600 | 63 => 100750 | 64 => 103950 | 65 => 107200
  | 66 => 110500 | 67 => 113850 | 68 => 117250 | 69 => 120700 | 70 => 124200
  | 71 => 127750 | 72 => 131350 | 73 => 135000 | 74 => 138700 | 75 => 142450
  | 76 => 146250 | 77 => 150100 | 78 => 154000 | 79 => 157950 | 80 => 161950
  | 81 => 166000 | 82 => 170100 | 83 => 174250 | 84 => 178450 | 85 => 182700
  | 86 => 187000 | 87 => 191350 | 88 => 195750 | 89 => 200200 | 90 => 204700
  | 91 => 209250 | 92 => 213850 | 93 => 218500 | 94 => 223200 | 95 => 227950
  | 96 => 232750 | 97 => 237600 | 98 => 242500 | 99 => 247450 | 100 => 252450
  | _ => 0

/-- One row of the `client_gamification` table, as read and written by
`GamificationController.add_experience`. -/
structure GamData where
  current_level : ℕ
  current_exp : ℤ
  total_exp : ℤ
  deriving Repr, DecidableEq

/-- Embeds the level-up loop of `add_experience` (lines 109-111):
`while new_level < 20 and new_current_exp >= self.EXP_TABLE.get(new_level + 1,
float('inf')): new_level += 1`.  The loop guard `new_level < 20` bounds the
number of iterations by the fuel argument; `levelUpFrom` supplies fuel 20,
which `levelUpLoop_fuel` proves sufficient for every starting level. -/
def levelUpLoop : ℕ → ℕ → ℤ → ℕ
  | 0, lvl, _ => lvl
  | fuel + 1, lvl, exp =>
    if lvl < 20 ∧ expTable (lvl + 1) ≤ exp then levelUpLoop fuel (lvl + 1) exp else lvl

/-- The final `new_level` computed by the level-up loop of `add_experience`. -/
def levelUpFrom (lvl : ℕ) (exp : ℤ) : ℕ :=
  levelUpLoop 20 lvl exp

/-- Result record of `add_experience` (the fields relevant to the ledger). -/
structure ApplyResult where
  state : GamData
  leveledUp : Bool
  deriving Repr, DecidableEq

/-- Embeds the ledger part of `GamificationController.add_experience`
(lines 100-126): add the gained experience to current and lifetime
experience, run the level-up loop, and if a level-up occurred subtract
`EXP_TABLE[new_level]` from the current experience.  The computation of
`exp_gained` itself from the base amount and multipliers (lines 90-98) is
modelled separately by `expGainedFloat`. -/
def applyExperience (g : GamData) (expGained : ℤ) : ApplyResult :=
  let newCurrentExp := g.current_exp + expGained
  let newTotalExp := g.total_exp + expGained
  let newLevel := levelUpFrom g.current_level newCurrentExp
  let leveledUp := newLevel ≠ g.current_level
  let adjustedExp := if leveledUp then newCurrentExp - expTable newLevel else newCurrentExp
  { state := { current_level := newLevel
               current_exp := adjustedExp
               total_exp := newTotalExp }
    leveledUp := leveledUp }

/-! ## Streak engine (database/db_manager.py `update_streak`,
`_only_missed_rest_days`, and controllers/gamification_controller.py
`update_streak`).

Calendar dates are modelled as integers counting days from a fixed Monday,
so `weekdayName` plays the role of `date.strftime("%A")` and the difference
of two dates is `(today - last_date).days`.  The wall-clock `today` that
`db_manager.update_streak` reads from `datetime.now().date()` is passed in
explicitly. -/

/-- `date.strftime("%A")` for the integer-day model (day 0 is a Monday). -/
def weekdayName (d : ℤ) : String :=
  match (d % 7).toNat with
  | 0 => "Monday"
  | 1 => "Tuesday"
  | 2 => "Wednesday"
  | 3 => "Thursday"
  | 4 => "Friday"
  | 5 => "Saturday"
  | _ => "Sunday"

/-- One row of the `client_streaks` table.  The schema declares
`streak_multiplier REAL DEFAULT 1.0`; the multiplier is modelled as an exact
rational. -/
structure StreakRow where
  current_streak : ℕ
  longest_streak : ℕ
  last_attendance_date : Option ℤ
  streak_multiplier : ℚ
  deriving Repr, DecidableEq

/-- Embeds `DatabaseManager._only_missed_rest_days`: starting from
`last_date`, the loop first advances `day_iter` by one day and then appends
its weekday name, repeating while `day_iter < today` — so the list it builds
runs from `last_date + 1` up to and **including** `today` itself.  Returns
true when none of those weekday names is an available training day. -/
def onlyMissedRestDays (last today : ℤ) (availableDays : List String) : Bool :=
  let missedDays := (List.range (today - last).toNat).map
    (fun i => weekdayName (last + (i : ℤ) + 1))
  missedDays.all (fun day => ¬ day ∈ availableDays)

/-- Embeds `DatabaseManager.update_streak` (the streak advance run on every
check-in, `attendance_controller.check_in` line 53): `availableDays` is the
client's `client_availability` rows with `is_available = 1` (rest days are
the other weekdays).  With no `client_streaks` row it inserts
`(1, 1, today)` (the schema default supplies `streak_multiplier = 1.0`);
with a row it increments the streak when the day difference is 1 or when the
difference exceeds 1 and `_only_missed_rest_days` holds, and otherwise
resets it to 1.  The UPDATE writes `current_streak`, `longest_streak` and
`last_attendance_date` only — it leaves `streak_multiplier` untouched. -/
def dbUpdateStreak (availableDays : List String) (row : Option StreakRow)
    (today : ℤ) : StreakRow :=
  match row with
  | none =>
      { current_streak := 1
        longest_streak := 1
        last_attendance_date := some today
        streak_multiplier := 1 }
  | some r =>
      let cs :=
        match r.last_attendance_date with
        | some lastDate =>
            let daysDifference := today - lastDate
            if daysDifference = 1 ∨
                (1 < daysDifference ∧ onlyMissedRestDays lastDate today availableDays) then
              r.current_streak + 1
            else
              1
        | none => 1
      let ls := if cs > r.longest_streak then cs else r.longest_streak
      { current_streak := cs
        longest_streak := ls
        last_attendance_date := some today
        streak_multiplier := r.streak_multiplier }

/-- The multiplier formula of `GamificationController.update_streak`
line 244: `min(1.0 + (current_streak - 1) * 0.1, 2.0)`, modelled over exact
rationals. -/
def streakMultiplierFormula (currentStreak : ℕ) : ℚ :=
  min (1 + ((currentStreak : ℚ) - 1) * (1 / 10)) 2

/-- Embeds `GamificationController.update_streak` (lines 198-263), the
controller-level streak advance that does recompute and store the
multiplier.  Returns `none` when the client has no streak row. -/
def gamUpdateStreak (row : Option StreakRow) (checkInDate : ℤ) :
    Option StreakRow :=
  match row with
  | none => none
  | some r =>
      let cs :=
        match r.last_attendance_date with
        | some lastDate =>
            let daysDiff := checkInDate - lastDate
            if daysDiff = 1 then r.current_streak + 1
            else if daysDiff = 0 then r.current_streak
            else 1
        | none => 1
      let ls := if cs > r.longest_streak then cs else r.longest_streak
      some { current_streak := cs
             longest_streak := ls
             last_attendance_date := some checkInDate
             streak_multiplier := streakMultiplierFormula cs }

/-! ## Rank engine (controllers/physical_test_controller.py and
`GamificationController.update_rank`).  Test scores are exact rationals
(Sprint scores are decimal numbers in the source). -/

/-- Embeds `PhysicalTestController.TEST_RANKINGS`: per-discipline threshold
tables.  Returns `none` for an unknown test name (`test_name not in
self.TEST_RANKINGS`); the per-rank function mirrors the inner dict, with the
`E` threshold as listed.  The Sprint row's decimal thresholds 12.0, 13.5,
15.0, 17.0, 19.0, 22.0 are written as exact rationals (`mkRat 27 2` is
13.5). -/
def testRankings (testName : String) : Option (String → ℚ) :=
  match testName with
  | "Push-ups" => some fun r =>
      match r with
      | "SS" => 60 | "S" => 50 | "A" => 40 | "B" => 30 | "C" => 20 | "D" => 10 | _ => 0
  | "Squats" => some fun r =>
      match r with
      | "SS" => 100 | "S" => 80 | "A" => 60 | "B" => 45 | "C" => 30 | "D" => 15 | _ => 0
  | "Sit-ups" => some fun r =>
      match r with
      | "SS" => 80 | "S" => 65 | "A" => 50 | "B" => 35 | "C" => 25 | "D" => 15 | _ => 0
  | "High Jump" => some fun r =>
      match r with
      | "SS" => 70 | "S" => 60 | "A" => 50 | "B" => 40 | "C" => 30 | "D" => 20 | _ => 0
  | "Sprint" => some fun r =>
      match r with
      | "SS" => 12 | "S" => mkRat 27 2 | "A" => 15 | "B" => 17 | "C" => 19 | "D" => 22
      | _ => 999
  | _ => none

/-- Embeds `PhysicalTestController.RANK_POINTS`.  Lookups only ever use the
seven ranks of the table, so the fallback value is never consulted. -/
def rankPoints (rank : String) : ℤ :=
  match rank with
  | "SS" => 200 | "S" => 150 | "A" => 100 | "B" => 70 | "C" => 40 | "D" => 20 | "E" => 0
  | _ => 0

/-- Embeds `PhysicalTestController._calculate_rank`: iterate the ranks
`SS, S, A, B, C, D` in order and return the first whose threshold the score
meets (`score <= threshold` for Sprint where lower is better,
`score >= threshold` otherwise); fall through to `E`. -/
def calculateRank (testName : String) (score : ℚ) : String :=
  match testRankings testName with
  | none => "E"
  | some thresholds =>
      if testName = "Sprint" then
        (["SS", "S", "A", "B", "C", "D"].find? fun rank =>
          score ≤ thresholds rank).getD "E"
      else
        (["SS", "S", "A", "B", "C", "D"].find? fun rank =>
          thresholds rank ≤ score).getD "E"

/-- Embeds `PhysicalTestController._calculate_overall_rank`: total points
from all tests mapped through the overall bracket table. -/
def calculateOverallRank (totalPoints : ℤ) : String :=
  if 900 ≤ totalPoints then "SS"
  else if 650 ≤ totalPoints then "S"
  else if 450 ≤ totalPoints then "A"
  else if 300 ≤ totalPoints then "B"
  else if 150 ≤ totalPoints then "C"
  else if 50 ≤ totalPoints then "D"
  else "E"

/-- The `valid_ranks` list of `GamificationController.update_rank`
(line 148).  Note it contains `"F"` — a rank produced nowhere in the
system — and does not contain `"SS"`. -/
def validRanks : List String := ["S", "A", "B", "C", "D", "E", "F"]

/-- Embeds `GamificationController.update_rank`: an invalid rank is skipped
(no UPDATE, returns `None`); a valid one overwrites the stored rank
unconditionally and is returned.  Result: (stored rank after the call,
returned value). -/
def updateRank (storedRank newRank : String) : String × Option String :=
  if newRank ∈ validRanks then (newRank, some newRank) else (storedRank, none)

/-- Embeds the rank path of
`PhysicalTestController.complete_full_assessment`: rank each recorded test,
accumulate its `RANK_POINTS`, map the total through
`_calculate_overall_rank`, and hand the overall rank to
`GamificationController.update_rank`.  The scores list stands for the tests
that exist in the `physical_tests` table (each `record_test_result` call
succeeds); the per-test EXP awards do not affect the rank path.  Result:
(total points, overall rank, stored rank after the call, value returned by
`update_rank`). -/
def completeFullAssessmentRank (testScores : List (String × ℚ))
    (storedRank : String) : ℤ × String × String × Option String :=
  let totalPoints := (testScores.map fun p => rankPoints (calculateRank p.1 p.2)).sum
  let overallRank := calculateOverallRank totalPoints
  let result := updateRank storedRank overallRank
  (totalPoints, overallRank, result.1, result.2)

/-! ## Achievement evaluator (controllers/achievement_controller.py) -/

/-- A `workout_logs` row, restricted to the columns `_get_client_stats`
reads. -/
structure WorkoutLog where
  client_id : ℕ
  workout_date : ℤ
  reps_completed : ℤ
  measurement : String
  deriving Repr, DecidableEq

/-- A `client_gamification` row, restricted to the columns
`_get_client_stats` reads. -/
structure GamRow where
  current_level : ℕ
  rank : String
  client_class : Option String
  deriving Repr, DecidableEq

/-- The stats snapshot built by `AchievementController._get_client_stats`. -/
structure AchStats where
  level : ℕ
  rank : String
  client_class : Option String
  current_streak : ℕ
  longest_streak : ℕ
  total_visits : ℕ
  total_workouts : ℕ
  total_sets : ℕ
  total_reps : ℤ
  deriving Repr, DecidableEq

/-- The `rank_order` dict used by `_check_achievement_requirement` (and
`_get_client_stats`' progress variant): ordinal index of a rank letter,
`.get(rank, 0)` defaulting to 0. -/
def rankOrder (rank : String) : ℕ :=
  match rank with
  | "E" => 0 | "D" => 1 | "C" => 2 | "B" => 3 | "A" => 4 | "S" => 5 | "SS" => 6
  | _ => 0

/-- Embeds `AchievementController._get_client_stats` (lines 348-387).  The
`gamRow`, `streakRow` and `attendanceCount` inputs are the result sets of
the first three queries, which are parameterized by the requested client.
The workout-stats query, however, is the SQL text
`... FROM workout_logs WHERE client_id=15 AND measurement='reps'`: it
hard-codes client 15 and contains no `?` placeholder even though the tuple
`(client_id,)` is still supplied to `cursor.execute` (on that mismatch
sqlite3 raises `ProgrammingError`, aborting the evaluation; the model keeps
the row filter exactly as the query text states it, which is what the
statement computes, and in either reading the workout counts are never the
requested actor's own).  SQL `SUM` of no rows is `NULL`, which the Python
`or 0` turns into 0 — matching the empty list sum. -/
def getClientStats (clientId : ℕ) (gamRow : Option GamRow)
    (streakRow : Option StreakRow) (attendanceCount : ℕ)
    (logs : List WorkoutLog) : AchStats :=
  let workoutRows := logs.filter fun l => l.client_id = 15 ∧ l.measurement = "reps"
  { level := (gamRow.map (·.current_level)).getD 1
    rank := (gamRow.map (·.rank)).getD "E"
    client_class := (gamRow.map (·.client_class)).getD none
    current_streak := (streakRow.map (·.current_streak)).getD 0
    longest_streak := (streakRow.map (·.longest_streak)).getD 0
    total_visits := attendanceCount
    total_workouts := (workoutRows.map (·.workout_date)).dedup.length
    total_sets := workoutRows.length
    total_reps := (workoutRows.map (·.reps_completed)).sum }

/-- An `achievements` row, restricted to the columns the requirement check
reads.  `initialize_achievements` stores rank requirements as their ordinal
index, so `requirement_value` is an integer for every category. -/
structure Achievement where
  achievement_type : String
  requirement_value : ℤ
  deriving Repr, DecidableEq

/-- Embeds `AchievementController._check_achievement_requirement`
(lines 322-346): dispatch on the achievement type and compare the matching
snapshot field against the requirement with `>=` (rank via `rank_order`
ordinals, class via presence); unknown types answer `False`. -/
def checkAchievementRequirement (ach : Achievement) (stats : AchStats) : Bool :=
  if ach.achievement_type = "level" then ach.requirement_value ≤ (stats.level : ℤ)
  else if ach.achievement_type = "attendance" then ach.requirement_value ≤ (stats.total_visits : ℤ)
  else if ach.achievement_type = "streak" then ach.requirement_value ≤ (stats.current_streak : ℤ)
  else if ach.achievement_type = "workouts" then ach.requirement_value ≤ (stats.total_workouts : ℤ)
  else if ach.achievement_type = "rank" then ach.requirement_value ≤ (rankOrder stats.rank : ℤ)
  else if ach.achievement_type = "sets" then ach.requirement_value ≤ (stats.total_sets : ℤ)
  else if ach.achievement_type = "reps" then ach.requirement_value ≤ stats.total_reps
  else if ach.achievement_type = "class" then stats.client_class.isSome
  else false

/-! ## Workout session machine
(controllers/workout_session_controller.py) -/

/-- One plan slot from `routine.get_exercises()`, restricted to the fields
the progress computation reads.  `apply_session_swaps` (main.py) replaces
the exercise identity of a slot but preserves the slot's `sets`, so a
substituted plan is just another value of this list. -/
structure PlanExercise where
  exercise_id : ℕ
  sets : ℕ
  deriving Repr, DecidableEq

/-- A `workout_set_completions` row for one session, restricted to the
columns `mark_set_completed` writes. -/
structure SetRow where
  exercise_id : ℕ
  set_number : ℕ
  reps_completed : ℤ
  weight_used : ℚ
  deriving Repr, DecidableEq

/-- Embeds `mark_set_completed` (lines 127-137): `INSERT OR REPLACE` into a
table with `UNIQUE(session_id, exercise_id, set_number)` deletes any
existing row with the same key and inserts the new one.  The table is the
set-completion rows of one session; row order is immaterial (reads sort by
exercise and set number). -/
def markSetCompleted (table : List SetRow) (row : SetRow) : List SetRow :=
  row :: table.filter fun r =>
    ¬ (r.exercise_id = row.exercise_id ∧ r.set_number = row.set_number)

/-- The progress dict returned by `get_session_progress` (minus the
per-template completion map). -/
structure SessionProgress where
  total_sets : ℕ
  completed_sets : ℕ
  completion_percentage : ℚ
  deriving Repr, DecidableEq

/-- Embeds `get_session_progress` (lines 163-189): the total is the sum of
`ex['sets']` over the routine's exercises, the completed count is the number
of recorded completion rows of the session, and the percentage is
`completed / total * 100` (0 when the total is 0). -/
def getSessionProgress (table : List SetRow) (exercises : List PlanExercise) :
    SessionProgress :=
  let totalSets := (exercises.map (·.sets)).sum
  let completedCount := table.length
  { total_sets := totalSets
    completed_sets := completedCount
    completion_percentage :=
      if 0 < totalSets then (completedCount : ℚ) / (totalSets : ℚ) * 100 else 0 }

/-- Embeds `check_and_complete_session` (lines 300-307): mark the session
completed exactly when the completion percentage reaches 100. -/
def checkAndCompleteSession (table : List SetRow)
    (exercises : List PlanExercise) : Bool :=
  if 100 ≤ (getSessionProgress table exercises).completion_percentage then true
  else false

/-- The keys `(exercise_id, set_number)` the plan requires: set numbers
1..sets for each exercise slot. -/
def requiredKeys (exercises : List PlanExercise) : List (ℕ × ℕ) :=
  exercises.flatMap fun ex => (List.range ex.sets).map fun s => (ex.exercise_id, s + 1)

/-! ## Floating-point award computation
(`add_experience` lines 90-98).

Python floats are IEEE-754 binary64 values; each float product is the exact
rational product rounded to 53 significant bits, round-to-nearest with ties
to even (`round64`; the magnitudes involved are far from the overflow and
subnormal ranges, which are therefore not modelled).  `int(...)` truncates
toward zero (`pyInt`). -/

/-- Round a rational to the nearest integer, ties to even. -/
def rne (q : ℚ) : ℤ :=
  if q - ⌊q⌋ < 1 / 2 then ⌊q⌋
  else if 1 / 2 < q - ⌊q⌋ then ⌊q⌋ + 1
  else if 2 ∣ ⌊q⌋ then ⌊q⌋ else ⌊q⌋ + 1

/-- Round a rational to IEEE-754 binary64: scale into the binade so the
significand has 53 bits, round to nearest integer with ties to even, and
scale back. -/
def round64 (q : ℚ) : ℚ :=
  if q = 0 then 0
  else (rne (q / 2 ^ (Int.log 2 |q| - 52)) : ℚ) * 2 ^ (Int.log 2 |q| - 52)

/-- Binary64 multiplication: the exact product, rounded. -/
def fmul (a b : ℚ) : ℚ := round64 (a * b)

/-- Python `int(...)` on a float: truncation toward zero. -/
def pyInt (q : ℚ) : ℤ := if 0 ≤ q then ⌊q⌋ else ⌈q⌉

/-- Embeds `add_experience` lines 96-98:
`total_multiplier = streak_multiplier * class_multiplier` and
`exp_gained = int(base_exp * total_multiplier)`, with both products
performed in binary64. -/
def expGainedFloat (baseExp : ℕ) (streakMultiplier classMultiplier : ℚ) : ℤ :=
  pyInt (fmul (baseExp : ℚ) (fmul streakMultiplier classMultiplier))

/-- The binary64 value of the class-multiplier literal `1.2`
(`CLASSES[...]['multiplier']`): the exact rational 6/5 rounded to 53-bit
precision. -/
def float12 : ℚ := round64 (6 / 5)

/-! ## Theorems -/

/-- Fuel adequacy: any fuel covering the remaining distance to the loop bound
20 gives the same answer, so `levelUpFrom` is the while loop's exact result. -/
theorem levelUpLoop_fuel (f₁ f₂ : ℕ) (lvl : ℕ) (exp : ℤ)
    (h₁ : 20 - lvl ≤ f₁) (h₂ : 20 - lvl ≤ f₂) :
    levelUpLoop f₁ lvl exp = levelUpLoop f₂ lvl exp := by
  induction f₁ generalizing f₂ lvl with
  | zero =>
    cases f₂ with
    | zero => rfl
    | succ f₂ =>
      have : ¬ lvl < 20 := by omega
      simp [levelUpLoop, this]
  | succ f₁ ih =>
    cases f₂ with
    | zero =>
      have : ¬ lvl < 20 := by omega
      simp [levelUpLoop, this]
    | succ f₂ =>
      simp only [levelUpLoop]
      by_cases h : lvl < 20 ∧ expTable (lvl + 1) ≤ exp
      · simp only [if_pos h]
        exact ih f₂ (lvl + 1) (by omega) (by omega)
      · simp [if_neg h]

/-- The loop never decreases the level. -/
theorem le_levelUpLoop (f lvl : ℕ) (exp : ℤ) : lvl ≤ levelUpLoop f lvl exp := by
  induction f generalizing lvl with
  | zero => simp [levelUpLoop]
  | succ f ih =>
    simp only [levelUpLoop]
    by_cases h : lvl < 20 ∧ expTable (lvl + 1) ≤ exp
    · simp only [if_pos h]
      exact le_trans (Nat.le_succ lvl) (ih (lvl + 1))
    · simp [if_neg h]

/-- If the loop advanced at all, the experience meets the cumulative
threshold of the level it finished at. -/
theorem levelUpLoop_threshold (f lvl : ℕ) (exp : ℤ)
    (h : levelUpLoop f lvl exp ≠ lvl) :
    expTable (levelUpLoop f lvl exp) ≤ exp := by
  induction f generalizing lvl with
  | zero => simp [levelUpLoop] at h
  | succ f ih =>
    simp only [levelUpLoop] at h ⊢
    by_cases hc : lvl < 20 ∧ expTable (lvl + 1) ≤ exp
    · simp only [if_pos hc] at h ⊢
      by_cases hr : levelUpLoop f (lvl + 1) exp = lvl + 1
      · rw [hr]; exact hc.2
      · exact ih (lvl + 1) hr
    · simp [if_neg hc] at h

/-- If the loop stopped strictly below the cap 20, the experience is below
the cumulative threshold of the next level (given adequate fuel). -/
theorem levelUpLoop_stop (f lvl : ℕ) (exp : ℤ) (hf : 20 - lvl ≤ f)
    (h : levelUpLoop f lvl exp < 20) :
    exp < expTable (levelUpLoop f lvl exp + 1) := by
  induction f generalizing lvl with
  | zero =>
    simp only [levelUpLoop] at h
    omega
  | succ f ih =>
    simp only [levelUpLoop] at h ⊢
    by_cases hc : lvl < 20 ∧ expTable (lvl + 1) ≤ exp
    · simp only [if_pos hc] at h ⊢
      exact ih (lvl + 1) (by omega) h
    · simp only [if_neg hc] at h ⊢
      push_neg at hc
      exact hc h

/-- C1, counterexample.  The client state (level 2, current experience 0) is
reachable from onboarding (level 1, experience 0) by a single 100-exp award;
a further 200-exp award then leaves stored current-level experience 200,
which is not strictly less than the 150-exp threshold delta between level 2
and level 3: `add_experience` compares the running experience against the
cumulative threshold `EXP_TABLE[3] = 250` instead of the delta, so no
level-up or normalization happens. -/
theorem add_experience_normalization_counterexample :
    applyExperience ⟨1, 0, 0⟩ 100 = ⟨⟨2, 0, 100⟩, true⟩ ∧
    (applyExperience ⟨2, 0, 100⟩ 200).state = ⟨2, 200, 300⟩ ∧
    ¬ ((applyExperience ⟨2, 0, 100⟩ 200).state.current_exp <
        expTable (2 + 1) - expTable 2) := by
  decide

/-- C1, amended.  After `add_experience` with a non-negative gain, the stored
current-level experience is non-negative and strictly less than the threshold
delta between the new level and the next level in exactly those calls where a
level-up occurred and the new level is below the loop cap 20; calls that do
not level up can leave the stored experience at or above the delta
(see the counterexample). -/
theorem add_experience_normalized_after_levelup (g : GamData) (gain : ℤ)
    (hgain : 0 ≤ gain)
    (hup : (applyExperience g gain).leveledUp = true)
    (hlt : (applyExperience g gain).state.current_level < 20) :
    0 ≤ (applyExperience g gain).state.current_exp ∧
    (applyExperience g gain).state.current_exp <
      expTable ((applyExperience g gain).state.current_level + 1) -
        expTable (applyExperience g gain).state.current_level := by
  have hne : levelUpFrom g.current_level (g.current_exp + gain) ≠ g.current_level :=
    of_decide_eq_true hup
  have hlt' : levelUpFrom g.current_level (g.current_exp + gain) < 20 := hlt
  have hthr : expTable (levelUpFrom g.current_level (g.current_exp + gain)) ≤
      g.current_exp + gain := levelUpLoop_threshold 20 _ _ hne
  have hstop : g.current_exp + gain <
      expTable (levelUpFrom g.current_level (g.current_exp + gain) + 1) :=
    levelUpLoop_stop 20 _ _ (by omega) hlt'
  have hexp : (applyExperience g gain).state.current_exp =
      g.current_exp + gain - expTable (levelUpFrom g.current_level (g.current_exp + gain)) := by
    simp [applyExperience, hne]
  have hlvl : (applyExperience g gain).state.current_level =
      levelUpFrom g.current_level (g.current_exp + gain) := rfl
  rw [hexp, hlvl]
  omega

/-- C1, witness for the amended theorem: onboarding state, 100-exp gain. -/
theorem add_experience_normalized_after_levelup_witness :
    (0 : ℤ) ≤ 100 ∧
    (0 ≤ (applyExperience ⟨1, 0, 0⟩ 100).state.current_exp ∧
      (applyExperience ⟨1, 0, 0⟩ 100).state.current_exp <
        expTable ((applyExperience ⟨1, 0, 0⟩ 100).state.current_level + 1) -
          expTable (applyExperience ⟨1, 0, 0⟩ 100).state.current_level) :=
  ⟨by decide,
    add_experience_normalized_after_levelup ⟨1, 0, 0⟩ 100 (by decide)
      (by decide) (by decide)⟩

/-- C6.  A client at level 20 whose experience after a gain reaches
`EXP_TABLE[21] = 11500`, the cumulative threshold for level 21, does not
level up: the loop guard `new_level < 20` in `add_experience` caps level-ups
at level 20 even though the table defines thresholds for levels up to 100
(and the achievement catalog contains level-30/50/75/100 achievements).
The excess experience accumulates without a level-up already at level 20,
not only at level 100 as the specification states. -/
theorem add_experience_level_cap_is_20 :
    applyExperience ⟨20, 0, 0⟩ 11500 = ⟨⟨20, 11500, 11500⟩, false⟩ ∧
    expTable (20 + 1) ≤ 11500 ∧ (20 : ℕ) < 100 := by
  decide

/-- C2.  Last activity on a Friday (day 4), check-in on the following Monday
(day 7), with Monday–Friday the client's available training days, so that
both days strictly between (Saturday day 5, Sunday day 6) are rest days.
The specification says the gap is forgiven and the streak increments, but
`_only_missed_rest_days` also appends the check-in day itself (Monday, a
training day) to the missed-day list, so the check returns false and
`update_streak` resets the streak to 1. -/
theorem update_streak_rest_day_gap_resets :
    (dbUpdateStreak ["Monday", "Tuesday", "Wednesday", "Thursday", "Friday"]
        (some ⟨3, 3, some 4, 1⟩) 7).current_streak = 1 ∧
    weekdayName 5 ∉ ["Monday", "Tuesday", "Wednesday", "Thursday", "Friday"] ∧
    weekdayName 6 ∉ ["Monday", "Tuesday", "Wednesday", "Thursday", "Friday"] ∧
    onlyMissedRestDays 4 7
      ["Monday", "Tuesday", "Wednesday", "Thursday", "Friday"] = false := by
  decide

/-- C8.  The check-in streak advance is not idempotent for repeated same-day
calls: a client with a 5-day streak whose last activity was day 6 advances to
streak 6 on day 7, but running the advance again on day 7 (day difference 0)
falls into the reset branch and knocks the streak back to 1.  (The admin
check-in route actually triggers this: it calls `check_in`, which already ran
`db.update_streak`, and then calls `db.update_streak` a second time.) -/
theorem update_streak_same_day_not_idempotent :
    dbUpdateStreak [] (some ⟨5, 5, some 6, 1⟩) 7 = ⟨6, 6, some 7, 1⟩ ∧
    dbUpdateStreak [] (some (dbUpdateStreak [] (some ⟨5, 5, some 6, 1⟩) 7)) 7 =
      ⟨1, 6, some 7, 1⟩ ∧
    dbUpdateStreak [] (some (dbUpdateStreak [] (some ⟨5, 5, some 6, 1⟩) 7)) 7 ≠
      dbUpdateStreak [] (some ⟨5, 5, some 6, 1⟩) 7 := by
  decide

/-- C7.  The streak advance run on check-in (`db_manager.update_streak`)
advances the streak from 5 to 6 but leaves the stored `streak_multiplier`
column at its stale value 1.4: its UPDATE statement does not write that
column, while the formula `min(1.0 + 0.1 × (6 - 1), 2.0)` of
`GamificationController.update_streak` gives 1.5.  Since
`add_experience` consumes the stored column via `_get_streak_multiplier`,
the next award uses 1.4, not the specified multiplier of the new streak. -/
theorem update_streak_multiplier_not_stored :
    (dbUpdateStreak [] (some ⟨5, 5, some 6, 7/5⟩) 7).current_streak = 6 ∧
    (dbUpdateStreak [] (some ⟨5, 5, some 6, 7/5⟩) 7).streak_multiplier = 7/5 ∧
    streakMultiplierFormula 6 = 3/2 ∧
    (dbUpdateStreak [] (some ⟨5, 5, some 6, 7/5⟩) 7).streak_multiplier ≠
      streakMultiplierFormula
        (dbUpdateStreak [] (some ⟨5, 5, some 6, 7/5⟩) 7).current_streak := by
  refine ⟨by decide, rfl, ?_, ?_⟩
  · norm_num [streakMultiplierFormula, min_def]
  · show (7 / 5 : ℚ) ≠ streakMultiplierFormula 6
    norm_num [streakMultiplierFormula, min_def]

/-- C5.  A full assessment with perfect scores ranks `SS` in every
discipline (1000 points, overall rank `SS`), but the overall rank does not
overwrite the stored rank: `update_rank`'s `valid_ranks` list omits `"SS"`
(while containing `"F"`, which nothing produces), so the update is skipped,
`None` is returned, and the stored rank stays `E`.  For the other letters
`E..S` the overwrite is unconditional, but the claim fails at `SS`. -/
theorem complete_full_assessment_ss_rank_not_stored :
    completeFullAssessmentRank
        [("Push-ups", 60), ("Squats", 100), ("Sit-ups", 80),
         ("High Jump", 70), ("Sprint", 12)] "E" =
      (1000, "SS", "E", none) ∧
    "SS" ∉ validRanks := by
  decide

/-- C3.  Achievement evaluation does not read the actor's own workout
counts: with a `workout_logs` table holding five `reps` rows for client 15
and three for client 7, the snapshot built for client 7 reports client 15's
five lifetime sets (four workout days, fifty reps), and a 4-set achievement
checks as unlocked for client 7 even though client 7's own rows number only
three.  The query hard-codes `client_id=15` (and its supplied bind parameter
has no placeholder, so sqlite3 additionally raises `ProgrammingError`). -/
theorem achievement_stats_use_client_15 :
    (getClientStats 7 (some ⟨3, "E", none⟩) (some ⟨2, 2, some 6, 1⟩) 2
        [⟨15, 100, 10, "reps"⟩, ⟨15, 100, 10, "reps"⟩, ⟨15, 101, 10, "reps"⟩,
         ⟨15, 102, 10, "reps"⟩, ⟨15, 103, 10, "reps"⟩,
         ⟨7, 200, 8, "reps"⟩, ⟨7, 201, 8, "reps"⟩, ⟨7, 202, 8, "reps"⟩]).total_sets = 5 ∧
    (getClientStats 7 (some ⟨3, "E", none⟩) (some ⟨2, 2, some 6, 1⟩) 2
        [⟨15, 100, 10, "reps"⟩, ⟨15, 100, 10, "reps"⟩, ⟨15, 101, 10, "reps"⟩,
         ⟨15, 102, 10, "reps"⟩, ⟨15, 103, 10, "reps"⟩,
         ⟨7, 200, 8, "reps"⟩, ⟨7, 201, 8, "reps"⟩, ⟨7, 202, 8, "reps"⟩]).total_workouts = 4 ∧
    (getClientStats 7 (some ⟨3, "E", none⟩) (some ⟨2, 2, some 6, 1⟩) 2
        [⟨15, 100, 10, "reps"⟩, ⟨15, 100, 10, "reps"⟩, ⟨15, 101, 10, "reps"⟩,
         ⟨15, 102, 10, "reps"⟩, ⟨15, 103, 10, "reps"⟩,
         ⟨7, 200, 8, "reps"⟩, ⟨7, 201, 8, "reps"⟩, ⟨7, 202, 8, "reps"⟩]).total_reps = 50 ∧
    checkAchievementRequirement ⟨"sets", 4⟩
      (getClientStats 7 (some ⟨3, "E", none⟩) (some ⟨2, 2, some 6, 1⟩) 2
        [⟨15, 100, 10, "reps"⟩, ⟨15, 100, 10, "reps"⟩, ⟨15, 101, 10, "reps"⟩,
         ⟨15, 102, 10, "reps"⟩, ⟨15, 103, 10, "reps"⟩,
         ⟨7, 200, 8, "reps"⟩, ⟨7, 201, 8, "reps"⟩, ⟨7, 202, 8, "reps"⟩]) = true ∧
    ([⟨15, 100, 10, "reps"⟩, ⟨15, 100, 10, "reps"⟩, ⟨15, 101, 10, "reps"⟩,
      ⟨15, 102, 10, "reps"⟩, ⟨15, 103, 10, "reps"⟩,
      ⟨7, 200, 8, "reps"⟩, ⟨7, 201, 8, "reps"⟩,
      ⟨7, 202, 8, "reps"⟩] : List WorkoutLog).countP
        (fun l => l.client_id = 7 ∧ l.measurement = "reps") = 3 ∧
    ¬ ((4 : ℤ) ≤ 3) := by
  decide

/-- Distinct plan slots produce distinct required keys. -/
theorem requiredKeys_nodup (exercises : List PlanExercise)
    (h : (exercises.map (·.exercise_id)).Nodup) : (requiredKeys exercises).Nodup := by
  rw [requiredKeys, List.nodup_flatMap]
  constructor
  · intro ex _
    refine List.Nodup.map ?_ (List.nodup_range _)
    intro a b hab
    simpa using hab
  · have hp : exercises.Pairwise fun a b => a.exercise_id ≠ b.exercise_id :=
      List.pairwise_map.mp h
    refine hp.imp ?_
    intro a b hab
    intro k hka hkb
    simp only [List.mem_map, List.mem_range] at hka hkb
    obtain ⟨s, _, hs⟩ := hka
    obtain ⟨t, _, ht⟩ := hkb
    apply hab
    rw [← hs] at ht
    exact (Prod.mk.injEq _ _ _ _).mp ht |>.1.symm

/-- The number of required keys is the plan's total set count. -/
theorem requiredKeys_length (exercises : List PlanExercise) :
    (requiredKeys exercises).length = (exercises.map (·.sets)).sum := by
  rw [requiredKeys, List.length_flatMap]
  congr 1
  simp [Function.comp]

/-- C9, counterexample.  A plan with a single exercise (id 1) requiring one
set, and a recorded completion row keyed to a different exercise (id 2):
`get_session_progress` counts one recorded row against a total of one, the
percentage is exactly 100 and `check_and_complete_session` completes the
session, even though the plan's required set (1, 1) has no recorded
entry. -/
theorem session_completion_counterexample :
    (getSessionProgress [⟨2, 1, 10, 0⟩] [⟨1, 1⟩]).completion_percentage = 100 ∧
    checkAndCompleteSession [⟨2, 1, 10, 0⟩] [⟨1, 1⟩] = true ∧
    (1, 1) ∈ requiredKeys [⟨1, 1⟩] ∧
    (1, 1) ∉ ([⟨2, 1, 10, 0⟩] : List SetRow).map
      fun r => (r.exercise_id, r.set_number) := by
  refine ⟨?_, ?_, by decide, by decide⟩
  · norm_num [getSessionProgress]
  · norm_num [checkAndCompleteSession, getSessionProgress]

/-- C9, amended.  When every recorded completion row belongs to the
(substituted) plan — its key is one of the plan's required
(exercise, set number) keys, set numbers within the slot's required count —
and the plan has at least one set, the completion percentage equals exactly
100, and `check_and_complete_session` completes the session, precisely when
every required key has a recorded entry, and not before.  The distinctness
of recorded keys is the table's UNIQUE(session, exercise, set) constraint;
without the containment restriction rows keyed outside the plan inflate the
count and can complete the session early (see the counterexample). -/
theorem session_completes_iff_all_required_sets
    (exercises : List PlanExercise) (table : List SetRow)
    (hids : (exercises.map (·.exercise_id)).Nodup)
    (hkeys : (table.map fun r => (r.exercise_id, r.set_number)).Nodup)
    (hsub : ∀ r ∈ table, (r.exercise_id, r.set_number) ∈ requiredKeys exercises)
    (hpos : 0 < (exercises.map (·.sets)).sum) :
    ((getSessionProgress table exercises).completion_percentage = 100 ↔
        ∀ k ∈ requiredKeys exercises,
          k ∈ table.map fun r => (r.exercise_id, r.set_number)) ∧
    (checkAndCompleteSession table exercises = true ↔
        ∀ k ∈ requiredKeys exercises,
          k ∈ table.map fun r => (r.exercise_id, r.set_number)) := by
  have hRnodup := requiredKeys_nodup exercises hids
  have hKR : (table.map fun r => (r.exercise_id, r.set_number)) ⊆
      requiredKeys exercises := by
    intro k hk
    rw [List.mem_map] at hk
    obtain ⟨r, hr, hkr⟩ := hk
    exact hkr ▸ hsub r hr
  have hsubF : (table.map fun r => (r.exercise_id, r.set_number)).toFinset ⊆
      (requiredKeys exercises).toFinset := by
    intro x hx
    rw [List.mem_toFinset] at hx ⊢
    exact hKR hx
  have hcard : table.length ≤ (exercises.map (·.sets)).sum := by
    calc table.length
        = (table.map fun r => (r.exercise_id, r.set_number)).length :=
          (List.length_map _ _).symm
      _ = (table.map fun r => (r.exercise_id, r.set_number)).toFinset.card :=
          (List.toFinset_card_of_nodup hkeys).symm
      _ ≤ (requiredKeys exercises).toFinset.card := Finset.card_le_card hsubF
      _ = (requiredKeys exercises).length := List.toFinset_card_of_nodup hRnodup
      _ = (exercises.map (·.sets)).sum := requiredKeys_length exercises
  have hcov : (∀ k ∈ requiredKeys exercises,
      k ∈ table.map fun r => (r.exercise_id, r.set_number)) ↔
      table.length = (exercises.map (·.sets)).sum := by
    constructor
    · intro hall
      have hsubF' : (requiredKeys exercises).toFinset ⊆
          (table.map fun r => (r.exercise_id, r.set_number)).toFinset := by
        intro x hx
        rw [List.mem_toFinset] at hx ⊢
        exact hall x hx
      have h1 : (exercises.map (·.sets)).sum ≤ table.length := by
        calc (exercises.map (·.sets)).sum
            = (requiredKeys exercises).length := (requiredKeys_length exercises).symm
          _ = (requiredKeys exercises).toFinset.card :=
              (List.toFinset_card_of_nodup hRnodup).symm
          _ ≤ (table.map fun r => (r.exercise_id, r.set_number)).toFinset.card :=
              Finset.card_le_card hsubF'
          _ = (table.map fun r => (r.exercise_id, r.set_number)).length :=
              List.toFinset_card_of_nodup hkeys
          _ = table.length := List.length_map _ _
      omega
    · intro hlen
      have hcards : (requiredKeys exercises).toFinset.card ≤
          (table.map fun r => (r.exercise_id, r.set_number)).toFinset.card := by
        rw [List.toFinset_card_of_nodup hRnodup, List.toFinset_card_of_nodup hkeys,
          List.length_map, requiredKeys_length]
        omega
      have heq := Finset.eq_of_subset_of_card_le hsubF hcards
      intro k hk
      have hk' : k ∈ (requiredKeys exercises).toFinset := List.mem_toFinset.mpr hk
      rw [← heq] at hk'
      exact List.mem_toFinset.mp hk'
  set c : ℕ := table.length with hcdef
  set t : ℕ := (exercises.map (·.sets)).sum with htdef
  have htQ : (0 : ℚ) < (t : ℚ) := by exact_mod_cast hpos
  have ht0 : (t : ℚ) ≠ 0 := ne_of_gt htQ
  have hpct : (getSessionProgress table exercises).completion_percentage =
      (c : ℚ) / (t : ℚ) * 100 := by
    simp [getSessionProgress, ← htdef, ← hcdef, hpos]
  have hiff1 : (getSessionProgress table exercises).completion_percentage = 100 ↔
      c = t := by
    rw [hpct, div_mul_eq_mul_div, div_eq_iff ht0]
    constructor
    · intro h
      have h' : (c : ℚ) = (t : ℚ) := by linarith
      exact_mod_cast h'
    · intro h
      have h' : (c : ℚ) = (t : ℚ) := by exact_mod_cast h
      rw [h']
      ring
  have hiff2 : 100 ≤ (getSessionProgress table exercises).completion_percentage ↔
      t ≤ c := by
    rw [hpct, div_mul_eq_mul_div, le_div_iff₀ htQ]
    constructor
    · intro h
      have h' : (t : ℚ) ≤ (c : ℚ) := by linarith
      exact_mod_cast h'
    · intro h
      have h' : (t : ℚ) ≤ (c : ℚ) := by exact_mod_cast h
      nlinarith
  have hcc : checkAndCompleteSession table exercises = true ↔
      100 ≤ (getSessionProgress table exercises).completion_percentage := by
    by_cases h : 100 ≤ (getSessionProgress table exercises).completion_percentage
    · simp [checkAndCompleteSession, h]
    · simp [checkAndCompleteSession, h]
  constructor
  · rw [hiff1, hcov]
  · rw [hcc, hiff2, hcov]
    omega

/-- C9, witness for the amended theorem: a one-exercise plan with two sets,
both recorded. -/
theorem session_completes_iff_all_required_sets_witness :
    (((([⟨1, 2⟩] : List PlanExercise).map (·.exercise_id)).Nodup) ∧
      ((([⟨1, 1, 10, 0⟩, ⟨1, 2, 8, 0⟩] : List SetRow).map
        fun r => (r.exercise_id, r.set_number)).Nodup) ∧
      (∀ r ∈ ([⟨1, 1, 10, 0⟩, ⟨1, 2, 8, 0⟩] : List SetRow),
        (r.exercise_id, r.set_number) ∈ requiredKeys [⟨1, 2⟩]) ∧
      0 < (([⟨1, 2⟩] : List PlanExercise).map (·.sets)).sum) ∧
    (((getSessionProgress [⟨1, 1, 10, 0⟩, ⟨1, 2, 8, 0⟩]
          [⟨1, 2⟩]).completion_percentage = 100 ↔
        ∀ k ∈ requiredKeys [⟨1, 2⟩],
          k ∈ ([⟨1, 1, 10, 0⟩, ⟨1, 2, 8, 0⟩] : List SetRow).map
            fun r => (r.exercise_id, r.set_number)) ∧
      (checkAndCompleteSession [⟨1, 1, 10, 0⟩, ⟨1, 2, 8, 0⟩] [⟨1, 2⟩] = true ↔
        ∀ k ∈ requiredKeys [⟨1, 2⟩],
          k ∈ ([⟨1, 1, 10, 0⟩, ⟨1, 2, 8, 0⟩] : List SetRow).map
            fun r => (r.exercise_id, r.set_number))) :=
  ⟨⟨by decide, by decide, by decide, by decide⟩,
    session_completes_iff_all_required_sets [⟨1, 2⟩]
      [⟨1, 1, 10, 0⟩, ⟨1, 2, 8, 0⟩] (by decide) (by decide) (by decide) (by decide)⟩

/-- C10.  Re-recording a set with the same (exercise, set number) key but a
different measurement overwrites the earlier row rather than adding one:
the completed-set count reported by `get_session_progress` stays constant
across the resubmission, and the row stored at that key afterwards is the
resubmitted one. -/
theorem record_set_same_key_overwrites (exercises : List PlanExercise)
    (table : List SetRow) (row₁ row₂ : SetRow)
    (h₁ : row₁.exercise_id = row₂.exercise_id)
    (h₂ : row₁.set_number = row₂.set_number) :
    (getSessionProgress (markSetCompleted (markSetCompleted table row₁) row₂)
        exercises).completed_sets =
      (getSessionProgress (markSetCompleted table row₁) exercises).completed_sets ∧
    (markSetCompleted (markSetCompleted table row₁) row₂).filter
        (fun r => r.exercise_id = row₂.exercise_id ∧ r.set_number = row₂.set_number) =
      [row₂] := by
  constructor
  · show (markSetCompleted (markSetCompleted table row₁) row₂).length =
      (markSetCompleted table row₁).length
    simp [markSetCompleted, h₁, h₂, List.filter_cons, List.filter_filter]
  · simp [markSetCompleted, h₁, h₂, List.filter_cons, List.filter_filter]

/-- C10, witness: recording set (1, 1) with 10 reps and re-recording it with
12 reps. -/
theorem record_set_same_key_overwrites_witness :
    ((⟨1, 1, 10, 0⟩ : SetRow).exercise_id = (⟨1, 1, 12, 0⟩ : SetRow).exercise_id ∧
      (⟨1, 1, 10, 0⟩ : SetRow).set_number = (⟨1, 1, 12, 0⟩ : SetRow).set_number) ∧
    ((getSessionProgress
          (markSetCompleted (markSetCompleted [] ⟨1, 1, 10, 0⟩) ⟨1, 1, 12, 0⟩)
          [⟨1, 1⟩]).completed_sets =
        (getSessionProgress (markSetCompleted [] ⟨1, 1, 10, 0⟩)
          [⟨1, 1⟩]).completed_sets ∧
      (markSetCompleted (markSetCompleted [] ⟨1, 1, 10, 0⟩) ⟨1, 1, 12, 0⟩).filter
          (fun r => r.exercise_id = (⟨1, 1, 12, 0⟩ : SetRow).exercise_id ∧
            r.set_number = (⟨1, 1, 12, 0⟩ : SetRow).set_number) =
        [⟨1, 1, 12, 0⟩]) :=
  ⟨⟨rfl, rfl⟩,
    record_set_same_key_overwrites [⟨1, 1⟩] [] ⟨1, 1, 10, 0⟩ ⟨1, 1, 12, 0⟩ rfl rfl⟩

theorem rne_eval_a : rne ((27021597764222976 : ℚ) / 5) = 5404319552844595 := by
  have hf : ⌊(27021597764222976 : ℚ) / 5⌋ = 5404319552844595 := by norm_num
  unfold rne
  rw [hf]
  norm_num

theorem float12_eval : float12 = 5404319552844595 / 4503599627370496 := by
  have hlog : Int.log 2 |(6 : ℚ) / 5| = 0 := by
    rw [abs_of_pos (by norm_num : (0 : ℚ) < 6 / 5)]
    rw [Int.log_of_one_le_right 2 (by norm_num : (1 : ℚ) ≤ 6 / 5)]
    have h : ⌊(6 : ℚ) / 5⌋₊ = 1 := by
      rw [Nat.floor_eq_iff (by norm_num)]
      norm_num
    rw [h, Nat.log_one_right]
    rfl
  unfold float12 round64
  rw [if_neg (by norm_num : ¬ ((6 : ℚ) / 5 = 0)), hlog]
  have harg : (6 : ℚ) / 5 / 2 ^ ((0 : ℤ) - 52) = (27021597764222976 : ℚ) / 5 := by
    norm_num
  rw [harg, rne_eval_a]
  norm_num

theorem rne_eval_b : rne ((16212958658533785 : ℚ) / 2) = 8106479329266892 := by
  have hf : ⌊(16212958658533785 : ℚ) / 2⌋ = 8106479329266892 := by norm_num
  unfold rne
  rw [hf]
  norm_num

/-- The binary64 product `1.5 * 1.2`: the exact product lands halfway
between two representable values and the tie goes to the even significand,
rounding down to 1.7999999999999998. -/
theorem fmul_15_float12 :
    fmul (3 / 2) float12 = 2026619832316723 / 1125899906842624 := by
  rw [fmul, float12_eval]
  have harg : (3 / 2 : ℚ) * (5404319552844595 / 4503599627370496) =
      16212958658533785 / 9007199254740992 := by norm_num
  rw [harg]
  have hlog : Int.log 2 |(16212958658533785 : ℚ) / 9007199254740992| = 0 := by
    rw [abs_of_pos (by norm_num : (0 : ℚ) < 16212958658533785 / 9007199254740992)]
    rw [Int.log_of_one_le_right 2
      (by norm_num : (1 : ℚ) ≤ 16212958658533785 / 9007199254740992)]
    have h : ⌊(16212958658533785 : ℚ) / 9007199254740992⌋₊ = 1 := by
      rw [Nat.floor_eq_iff (by norm_num)]
      norm_num
    rw [h, Nat.log_one_right]
    rfl
  unfold round64
  rw [if_neg (by norm_num : ¬ ((16212958658533785 : ℚ) / 9007199254740992 = 0)), hlog]
  have harg2 : (16212958658533785 : ℚ) / 9007199254740992 / 2 ^ ((0 : ℤ) - 52) =
      (16212958658533785 : ℚ) / 2 := by
    norm_num
  rw [harg2, rne_eval_b]
  norm_num

theorem rne_eval_c : rne ((50665495807918075 : ℚ) / 8) = 6333186975989759 := by
  have hf : ⌊(50665495807918075 : ℚ) / 8⌋ = 6333186975989759 := by norm_num
  unfold rne
  rw [hf]
  norm_num

/-- The binary64 product `100 * 1.7999999999999998` rounds to
179.99999999999997, strictly below 180. -/
theorem fmul_100_total :
    fmul 100 (2026619832316723 / 1125899906842624) =
      6333186975989759 / 35184372088832 := by
  rw [fmul]
  have harg : (100 : ℚ) * (2026619832316723 / 1125899906842624) =
      50665495807918075 / 281474976710656 := by norm_num
  rw [harg]
  have hlog : Int.log 2 |(50665495807918075 : ℚ) / 281474976710656| = 7 := by
    rw [abs_of_pos (by norm_num : (0 : ℚ) < 50665495807918075 / 281474976710656)]
    rw [Int.log_of_one_le_right 2
      (by norm_num : (1 : ℚ) ≤ 50665495807918075 / 281474976710656)]
    have h : ⌊(50665495807918075 : ℚ) / 281474976710656⌋₊ = 179 := by
      rw [Nat.floor_eq_iff (by norm_num)]
      norm_num
    have h2 : Nat.log 2 179 = 7 :=
      Nat.log_eq_of_pow_le_of_lt_pow (by norm_num) (by norm_num)
    rw [h, h2]
    rfl
  unfold round64
  rw [if_neg (by norm_num : ¬ ((50665495807918075 : ℚ) / 281474976710656 = 0)), hlog]
  have harg2 : (50665495807918075 : ℚ) / 281474976710656 / 2 ^ ((7 : ℤ) - 52) =
      (50665495807918075 : ℚ) / 8 := by
    norm_num
  rw [harg2, rne_eval_c]
  norm_num

/-- The streak multiplier 1.5 is exactly representable in binary64. -/
theorem round64_three_halves : round64 (3 / 2) = 3 / 2 := by
  have hlog : Int.log 2 |(3 : ℚ) / 2| = 0 := by
    rw [abs_of_pos (by norm_num : (0 : ℚ) < 3 / 2)]
    rw [Int.log_of_one_le_right 2 (by norm_num : (1 : ℚ) ≤ 3 / 2)]
    have h : ⌊(3 : ℚ) / 2⌋₊ = 1 := by
      rw [Nat.floor_eq_iff (by norm_num)]
      norm_num
    rw [h, Nat.log_one_right]
    rfl
  unfold round64
  rw [if_neg (by norm_num : ¬ ((3 : ℚ) / 2 = 0)), hlog]
  have harg : (3 : ℚ) / 2 / 2 ^ ((0 : ℤ) - 52) = (6755399441055744 : ℚ) := by
    norm_num
  rw [harg]
  have hr : rne (6755399441055744 : ℚ) = 6755399441055744 := by
    have hf : ⌊(6755399441055744 : ℚ)⌋ = 6755399441055744 := by norm_num
    unfold rne
    rw [hf]
    norm_num
  rw [hr]
  norm_num

/-- C4.  With base experience 100, streak multiplier 1.5 (exactly
representable, produced by a 6-day streak) and class multiplier 1.2, the
code awards `int(100 * (1.5 * 1.2))` computed in binary64, which is
`int(179.99999999999997) = 179` — not the 180 given by
`floor(100 × 1.5 × 1.2)` over the reals: the product `1.5 * 1.2` rounds
down to 1.7999999999999998, and `int()` truncates the shortfall away. -/
theorem add_experience_award_is_179_not_180 :
    expGainedFloat 100 (3 / 2) float12 = 179 ∧
    round64 (3 / 2) = 3 / 2 ∧
    ⌊(100 : ℚ) * ((3 / 2) * (6 / 5))⌋ = 180 := by
  refine ⟨?_, round64_three_halves, by norm_num⟩
  rw [expGainedFloat, fmul_15_float12]
  rw [show ((100 : ℕ) : ℚ) = (100 : ℚ) by norm_num]
  rw [fmul_100_total]
  rw [pyInt, if_pos (by norm_num : (0 : ℚ) ≤ 6333186975989759 / 35184372088832)]
  norm_num

end LevelUPGym

